import Mathlib

/-!
Verification of the map-sketch repository: the edge proxy
(`src/map-api-proxy/src/index.js`) and the service-worker caching layer
(`src/sw.js`).  JavaScript numbers are modelled as `Option ℝ` where `none`
plays the role of `NaN` (every arithmetic operation propagates it and every
comparison involving it is false); strings and query parameters are modelled
with Lean `String`s and association lists.
-/

/-- The four UK regions distinguished by `detectRegion` in
`src/map-api-proxy/src/index.js`. -/
inductive Region where
  | england
  | scotland
  | wales
  | northern_ireland
deriving DecidableEq, Repr

/-- Upstream WMS configuration, a `url`/`layers` pair
(`getWMSConfig` in `src/map-api-proxy/src/index.js`). -/
structure WMSConfig where
  url : String
  layers : String
deriving DecidableEq, Repr

/-- `getWMSConfig` from `src/map-api-proxy/src/index.js` (lines 329-355):
all four regions currently map to the England endpoint and layer. -/
def getWMSConfig : Region → WMSConfig
  | Region.england =>
      ⟨"https://environment.data.gov.uk/spatialdata/lidar-composite-digital-terrain-model-dtm-1m/wms",
       "Lidar_Composite_Hillshade_DTM_1m"⟩
  | Region.scotland =>
      ⟨"https://environment.data.gov.uk/spatialdata/lidar-composite-digital-terrain-model-dtm-1m/wms",
       "Lidar_Composite_Hillshade_DTM_1m"⟩
  | Region.wales =>
      ⟨"https://environment.data.gov.uk/spatialdata/lidar-composite-digital-terrain-model-dtm-1m/wms",
       "Lidar_Composite_Hillshade_DTM_1m"⟩
  | Region.northern_ireland =>
      ⟨"https://environment.data.gov.uk/spatialdata/lidar-composite-digital-terrain-model-dtm-1m/wms",
       "Lidar_Composite_Hillshade_DTM_1m"⟩

/-- A JavaScript number: `none` models `NaN`, `some x` a (real) numeric
value.  Float rounding is idealised away; `NaN` propagation is modelled
exactly. -/
abbrev JSNum := Option ℝ

/-- JavaScript `+` on numbers, with `NaN` propagation. -/
noncomputable def jAdd : JSNum → JSNum → JSNum
  | some a, some b => some (a + b)
  | _, _ => none

/-- JavaScript `/` on numbers, with `NaN` propagation (the divisors used in
the source are the nonzero constants `2` and `originShift`). -/
noncomputable def jDiv : JSNum → JSNum → JSNum
  | some a, some b => some (a / b)
  | _, _ => none

/-- JavaScript `Math.abs`, with `NaN` propagation. -/
noncomputable def jAbs : JSNum → JSNum := Option.map (fun x => |x|)

/-- JavaScript `<` on numbers: false whenever either side is `NaN`. -/
def jLt : JSNum → JSNum → Prop
  | some a, some b => a < b
  | _, _ => False

/-- `originShift = 2 * Math.PI * 6378137 / 2.0` from line 290 of
`src/map-api-proxy/src/index.js`. -/
noncomputable def originShift : ℝ := 2 * Real.pi * 6378137 / 2

/-- `centerLon = (centerX / originShift) * 180.0` (line 292). -/
noncomputable def mercLon (x : ℝ) : ℝ := x / originShift * 180

/-- `latRad = (centerY / originShift) * Math.PI;`
`centerLat = (Math.atan(Math.exp(latRad)) * 2 - Math.PI / 2) * (180.0 / Math.PI)`
(lines 293-294). -/
noncomputable def mercLat (y : ℝ) : ℝ :=
  (Real.arctan (Real.exp (y / originShift * Real.pi)) * 2 - Real.pi / 2) * (180 / Real.pi)

open Classical in
/-- The CRS guess and Web-Mercator conversion of `detectRegion`
(lines 284-299): if `|x| > 20000 or |y| > 20000` convert both coordinates,
otherwise use them unchanged as (longitude, latitude). -/
noncomputable def jToGeo (x y : JSNum) : JSNum × JSNum :=
  if jLt (some 20000) (jAbs x) ∨ jLt (some 20000) (jAbs y) then
    (Option.map mercLon x, Option.map mercLat y)
  else
    (x, y)

open Classical in
/-- The four region rules of `detectRegion` (lines 303-325), evaluated in
source order on the geographic center coordinates; comparisons involving
`NaN` are false, as in JavaScript. -/
noncomputable def classifyGeo (lon lat : JSNum) : Region :=
  if jLt (some 55.3) lat then Region.scotland
  else if jLt lon (some (-2.5)) ∧ jLt (some 51.3) lat ∧ jLt lat (some 53.5) then Region.wales
  else if jLt lon (some (-5.5)) ∧ jLt (some 54.0) lat ∧ jLt lat (some 55.5) then
    Region.northern_ireland
  else Region.england

/-- The center computation of `detectRegion` (lines 279-299): box center of
the four parsed coordinates, then the CRS guess / conversion.  The input
list models `bboxString.split(',').map(parseFloat)`, with `none` for tokens
`parseFloat` turns into `NaN`. -/
noncomputable def bboxCenterGeo (coords : List JSNum) : JSNum × JSNum :=
  let minX := coords.getD 0 none
  let minY := coords.getD 1 none
  let maxX := coords.getD 2 none
  let maxY := coords.getD 3 none
  let centerX := jDiv (jAdd minX maxX) (some 2)
  let centerY := jDiv (jAdd minY maxY) (some 2)
  jToGeo centerX centerY

/-- `detectRegion` from `src/map-api-proxy/src/index.js` (lines 271-326),
over the token list produced by `bboxString.split(',').map(parseFloat)`:
if there are not exactly four tokens return `england`, otherwise classify
the (possibly converted) box center. -/
noncomputable def detectRegion (coords : List JSNum) : Region :=
  if coords.length ≠ 4 then Region.england
  else classifyGeo (bboxCenterGeo coords).1 (bboxCenterGeo coords).2

/-- Claim-side reading of "splits into exactly four comma-separated
numbers": four tokens, each of which parses to an actual number (not
`NaN`). -/
def fourNumbers (coords : List JSNum) : Prop :=
  coords.length = 4 ∧ ∀ x ∈ coords, x.isSome

/-- Modelled from the spec's wording of the Web-Mercator formula
(`originShift = π·R` with `R = 6378137`): used to compare the claim's
formula against the code's. -/
noncomputable def specOriginShift : ℝ := Real.pi * 6378137

/-- Modelled from the spec's wording of the Web-Mercator → geographic
formula: `lon = (x / originShift)·180`,
`lat = (2·atan(exp((y / originShift)·π)) − π/2)·(180/π)`. -/
noncomputable def specMercGeo (x y : ℝ) : ℝ × ℝ :=
  (x / specOriginShift * 180,
   (2 * Real.arctan (Real.exp (y / specOriginShift * Real.pi)) - Real.pi / 2) * (180 / Real.pi))

/-! ### Query parameters and request routing -/

/-- Query parameters of a request, in order, as produced by
`url.searchParams` (a multimap of string pairs). -/
abbrev Params := List (String × String)

/-- `url.searchParams.get(k)`: value of the first pair with key `k`. -/
def getP : Params → String → Option String
  | [], _ => none
  | p :: rest, k => if p.1 = k then some p.2 else getP rest k

/-- `url.searchParams.has(k)`. -/
def hasP (ps : Params) (k : String) : Bool := (getP ps k).isSome

/-- `url.searchParams.getAll(k)`: all values stored under key `k`, in
order. -/
def getAllP (ps : Params) (k : String) : List String :=
  (ps.filter (fun p => p.1 == k)).map (fun p => p.2)

/-- `URLSearchParams.set(k, v)`: replace the first pair keyed `k` with
`(k, v)` and drop every later pair keyed `k`; append `(k, v)` when `k` is
absent. -/
def setParam : Params → String → String → Params
  | [], k, v => [(k, v)]
  | p :: rest, k, v =>
    if p.1 = k then (k, v) :: rest.filter (fun q => !(q.1 == k))
    else p :: setParam rest k v

/-- JavaScript `a || d` for the string options returned by
`searchParams.get`: the default is taken when the parameter is absent or
its value is the empty string (which is falsy). -/
def orDefault (o : Option String) (d : String) : String :=
  match o with
  | some s => if s = "" then d else s
  | none => d

/-- Error bodies produced by the proxy without contacting any upstream
(`error` plus the optional `usage` / `validTypes` fields that appear in
`src/map-api-proxy/src/index.js`). -/
structure ErrorBody where
  error : String
  usage : Option String
  validTypes : Option (List String)
deriving DecidableEq, Repr

/-- Body of the missing-`service` 400 response (lines 34-48). -/
def missingServiceBody : ErrorBody :=
  ⟨"Missing service parameter",
   some "Add ?service=tiles, ?service=features, or ?service=lidar",
   none⟩

/-- Body of the invalid-`service` 400 response (lines 75-89). -/
def invalidServiceBody : ErrorBody :=
  ⟨"Invalid service type", none, some ["tiles", "features", "lidar"]⟩

/-- Outcome of the synchronous routing prefix of the worker `fetch`
handler: either a local response emitted without contacting any upstream,
a hand-off to `handleLidarRequest`, or an upstream OS NGD call carrying the
built URL and the passthrough parameters. -/
inductive Outcome where
  | localResponse (status : Nat) (body : ErrorBody)
  | lidarCall
  | upstreamCall (apiUrl : String) (extra : Params)
deriving DecidableEq, Repr

/-- The routing logic of the worker `fetch` handler
(`src/map-api-proxy/src/index.js`, lines 20-101), after the `OPTIONS`
preflight branch: WMS/LiDAR detection, the missing-`service` 400, the
`tiles` / `features` upstream URL construction with its passthrough
parameters, and the invalid-`service` 400. -/
def routeOf (apiKey : String) (params : Params) : Outcome :=
  let serviceType := getP params "service"
  let hasWMSParams := hasP params "BBOX" || hasP params "bbox"
  let hasServiceParam := hasP params "SERVICE" || hasP params "service"
  if hasWMSParams && (serviceType == some "lidar" || hasServiceParam) then
    Outcome.lidarCall
  else if serviceType = none then
    Outcome.localResponse 400 missingServiceBody
  else if serviceType = some "lidar" then
    Outcome.lidarCall
  else if serviceType = some "tiles" then
    let collectionId := orDefault (getP params "collection") "ngd-base"
    let path := orDefault (getP params "path") ""
    let apiUrl :=
      if path ≠ "" then
        "https://api.os.uk/maps/vector/ngd/ota/v1/collections/" ++ collectionId ++ "/" ++
          path ++ "?key=" ++ apiKey
      else
        "https://api.os.uk/maps/vector/ngd/ota/v1/collections/" ++ collectionId ++
          "/styles/3857?key=" ++ apiKey
    Outcome.upstreamCall apiUrl
      (params.filter (fun p => !(p.1 == "service" || p.1 == "collection" || p.1 == "path")))
  else if serviceType = some "features" then
    let path := orDefault (getP params "path") ""
    let apiUrl := "https://api.os.uk/features/ngd/ofa/v1/" ++ path ++ "?key=" ++ apiKey
    Outcome.upstreamCall apiUrl
      (params.filter (fun p => !(p.1 == "service" || p.1 == "collection" || p.1 == "path")))
  else
    Outcome.localResponse 400 invalidServiceBody

/-- JavaScript `String.prototype.toLowerCase()` (the keys and values the
source lowercases are ASCII). -/
def lowerStr (s : String) : String := ⟨s.data.map Char.toLower⟩

/-- The copy loop of `handleLidarRequest` (lines 208-216): every original
pair is copied except the proxy's own `service=lidar` marker, comparing
key and value lowercased. -/
def lidarCopied (params : Params) : Params :=
  params.filter (fun p => !(lowerStr p.1 == "service" && lowerStr p.2 == "lidar"))

/-- Lines 218-221 of `handleLidarRequest`: force `SERVICE=WMS` when
neither a `SERVICE` nor a `service` key survived the copy. -/
def lidarWithService (params : Params) : Params :=
  if !(hasP (lidarCopied params) "SERVICE" || hasP (lidarCopied params) "service") then
    setParam (lidarCopied params) "SERVICE" "WMS"
  else lidarCopied params

/-- The outbound WMS parameter construction of `handleLidarRequest`
(lines 205-224): copy minus the marker, the `SERVICE=WMS` default, then
`set` the `LAYERS` parameter to the region's configured layer. -/
def buildLidarParams (params : Params) (layers : String) : Params :=
  setParam (lidarWithService params) "LAYERS" layers

/-! ### JSON values and the style-JSON rewrite -/

/-- JSON values as produced by `JSON.parse`; object fields are an
association list with (post-parse) unique keys, in insertion order. -/
inductive Json where
  | null
  | bool (b : Bool)
  | num (q : ℚ)
  | str (s : String)
  | arr (xs : List Json)
  | obj (fields : List (String × Json))

/-- Field lookup in an association list (first match). -/
def getA : List (String × Json) → String → Option Json
  | [], _ => none
  | p :: rest, k => if p.1 = k then some p.2 else getA rest k

/-- JavaScript property read `j[k]` on a parsed JSON value: `none` models
`undefined` (also for non-object receivers). -/
def Json.getF : Json → String → Option Json
  | Json.obj fs, k => getA fs k
  | _, _ => none

/-- Assignment into an association list: replace the value at the first
occurrence of the key in place, or append a new field. -/
def setA : List (String × Json) → String → Json → List (String × Json)
  | [], k, v => [(k, v)]
  | p :: rest, k, v => if p.1 = k then (k, v) :: rest else p :: setA rest k v

/-- JavaScript property assignment `j[k] = v` (no effect on non-objects,
which never occurs in the guarded source paths). -/
def Json.setF : Json → String → Json → Json
  | Json.obj fs, k, v => Json.obj (setA fs k v)
  | j, _, _ => j

/-- JavaScript `delete j[k]`. -/
def Json.delF : Json → String → Json
  | Json.obj fs, k => Json.obj (fs.filter (fun p => !(p.1 == k)))
  | j, _ => j

/-- JavaScript truthiness of a parsed JSON value: `null`, `false`, `0` and
`""` are falsy; arrays and objects are always truthy. -/
def Json.truthy : Json → Bool
  | Json.null => false
  | Json.bool b => b
  | Json.num q => decide (q ≠ 0)
  | Json.str s => decide (s ≠ "")
  | Json.arr _ => true
  | Json.obj _ => true

/-- Truthiness of a JavaScript property read (`undefined` is falsy). -/
def truthyOpt : Option Json → Bool
  | some j => j.truthy
  | none => false

/-- The templated tile URL pointing back at the proxy (line 133 of
`src/map-api-proxy/src/index.js`). -/
def tilesTemplate (origin collectionId : String) : String :=
  origin ++ "?service=tiles&collection=" ++ collectionId ++ "&path=tiles/3857/{z}/{y}/{x}"

/-- Lines 132-137 of `src/map-api-proxy/src/index.js`: the rewritten
source object — a `tiles` array holding the single templated proxy URL is
assigned and the original `url` property is deleted. -/
def rewrittenSource (origin collectionId : String) (src : Json) : Json :=
  (src.setF "tiles" (Json.arr [Json.str (tilesTemplate origin collectionId)])).delF "url"

/-- The style-JSON rewrite of the worker `fetch` handler (lines 122-143):
when the parsed body has a truthy `sources` field and the request was a
`tiles` request, rewrite the source keyed by the request's collection
(synthesize the `tiles` array and delete `url`, provided the source and its
`url` are truthy) and then delete the top-level `center` and `zoom`
fields; otherwise leave the value unchanged.  The subsequent key-redaction
pass on the serialized text is modelled separately by `redact`. -/
def rewriteStyle (origin : String) (serviceType : Option String) (collectionId : String)
    (data : Json) : Json :=
  if truthyOpt (data.getF "sources") && (serviceType == some "tiles") then
    let data1 :=
      match data.getF "sources" with
      | none => data
      | some sources =>
        match sources.getF collectionId with
        | none => data
        | some src =>
          if src.truthy && truthyOpt (src.getF "url") then
            data.setF "sources" (sources.setF collectionId (rewrittenSource origin collectionId src))
          else data
    (data1.delF "center").delF "zoom"
  else data

/-! ### The key-redaction pass on serialized JSON text -/

/-- A character the regex class `[^"&]` accepts. -/
def isVal (c : Char) : Bool := !(c == '"' || c == '&')

/-- Does the text begin with `key=` followed by at least one `[^"&]`
character?  (The part of the redaction patterns after the leading `?` or
`&`.) -/
def keyPat : List Char → Bool
  | k :: e :: y :: q :: v :: _ =>
    k == 'k' && e == 'e' && y == 'y' && q == '=' && isVal v
  | _ => false

/-- Fuelled left-to-right scanner for
`text.replace(/<pre>key=[^"&]+/g, '')` (lines 146-147 of
`src/map-api-proxy/src/index.js`, with `pre` the escaped `?` or `&`):
on a match, delete the match (greedy value run) and continue after it;
otherwise keep the character.  The fuel only serves Lean's termination
checker; `stripKeys` supplies enough of it. -/
def stripF (pre : Char) : Nat → List Char → List Char
  | 0, l => l
  | _ + 1, [] => []
  | f + 1, c :: rest =>
    if c == pre && keyPat rest then
      stripF pre f ((rest.drop 4).dropWhile isVal)
    else c :: stripF pre f rest

/-- One global-replace pass deleting every `<pre>key=[^"&]+` match. -/
def stripKeys (pre : Char) (l : List Char) : List Char := stripF pre l.length l

/-- The blanket redaction pass of line 147:
`jsonText.replace(/\?key=[^"&]+/g, '').replace(/&key=[^"&]+/g, '')`. -/
def redact (l : List Char) : List Char := stripKeys '&' (stripKeys '?' l)

/-- Does the text contain a match of `<pre>key=[^"&]`, i.e. a still
redactable embedded key? -/
def hasPat (pre : Char) : List Char → Bool
  | [] => false
  | c :: rest => (c == pre && keyPat rest) || hasPat pre rest

/-- Substring occurrence, for stating the redaction claims. -/
def containsSeq (pat : List Char) : List Char → Bool
  | [] => pat.isEmpty
  | c :: rest => pat.isPrefixOf (c :: rest) || containsSeq pat rest

/-! ### Service worker: cache lifecycle and navigation strategy -/

/-- `const VERSION = 'v1.2.0'` from `src/sw.js`. -/
def swVersion : String := "v1.2.0"

/-- `` const APP_CACHE = `mapsketch-app-${VERSION}` `` from `src/sw.js`,
for an arbitrary version tag. -/
def appCacheName (v : String) : String := "mapsketch-app-" ++ v

/-- `` const RUNTIME_CACHE = `mapsketch-runtime-${VERSION}` `` from
`src/sw.js`, for an arbitrary version tag. -/
def runtimeCacheName (v : String) : String := "mapsketch-runtime-" ++ v

/-- The activate handler of `src/sw.js` (lines 15-21): every existing
cache store whose name differs from both current store names is deleted;
the survivors are exactly the stores matching one of the two names. -/
def activateSurvivors (v : String) (keys : List String) : List String :=
  keys.filter (fun k => k == appCacheName v || k == runtimeCacheName v)

/-- A response observable by the service worker: an HTTP response or the
generic `Response.error()` failure response. -/
inductive SWResponse where
  | http (status : Nat) (body : String)
  | networkError
deriving DecidableEq, Repr

/-- The network-first navigation branch of the `fetch` handler in
`src/sw.js` (lines 27-40).  First argument: the network fetch outcome
(`none` models a rejected fetch).  Second argument: the app-cache lookup
for the request.  Result: the response returned to the client, and the
entry written to the app cache (`none` when nothing is written). -/
def handleNavigation : Option SWResponse → Option SWResponse → SWResponse × Option SWResponse
  | some r, _ => (r, some r)
  | none, some hit => (hit, none)
  | none, none => (SWResponse.networkError, none)

/-! ### Helper lemmas: parameters -/

theorem getP_eq_none_of_hasP_false {ps : Params} {k : String} (h : hasP ps k = false) :
    getP ps k = none := by
  unfold hasP at h
  cases hg : getP ps k with
  | none => rfl
  | some v => rw [hg] at h; simp at h

theorem hasP_true_of_mem {ps : Params} {kv : String × String} (h : kv ∈ ps) :
    hasP ps kv.1 = true := by
  induction ps with
  | nil => cases h
  | cons p rest ih =>
    unfold hasP getP
    rcases List.mem_cons.mp h with rfl | hm
    · simp
    · split
      · simp
      · exact ih hm

theorem key_ne_of_hasP_false {ps : Params} {kv : String × String} {k : String}
    (h : hasP ps k = false) (hm : kv ∈ ps) : kv.1 ≠ k := by
  intro hk
  rw [← hk] at h
  rw [hasP_true_of_mem hm] at h
  cases h

theorem mem_setParam_self (ps : Params) (k v : String) : (k, v) ∈ setParam ps k v := by
  induction ps with
  | nil => simp [setParam]
  | cons p rest ih =>
    unfold setParam
    split
    · exact List.mem_cons_self _ _
    · exact List.mem_cons_of_mem _ ih

theorem mem_setParam_of_ne {kv : String × String} {k : String} (ps : Params) (v : String)
    (hne : kv.1 ≠ k) : kv ∈ setParam ps k v ↔ kv ∈ ps := by
  induction ps with
  | nil =>
    simp only [setParam, List.mem_singleton, List.not_mem_nil, iff_false]
    intro hkv
    exact hne (by rw [hkv])
  | cons p rest ih =>
    unfold setParam
    split
    · rename_i hp
      constructor
      · intro hm
        rcases List.mem_cons.mp hm with hkv | hm2
        · exact absurd (by rw [hkv]) hne
        · exact List.mem_cons_of_mem _ (List.mem_filter.mp hm2).1
      · intro hm
        rcases List.mem_cons.mp hm with hkv | hm2
        · exact absurd (hkv ▸ hp) hne
        · exact List.mem_cons_of_mem _
            (List.mem_filter.mpr ⟨hm2, by simp [hne]⟩)
    · simp only [List.mem_cons, ih]
theorem mem_setParam_elim {kv : String × String} {ps : Params} {k v : String}
    (h : kv ∈ setParam ps k v) : kv ∈ ps ∨ kv = (k, v) := by
  induction ps with
  | nil => simp [setParam] at h; right; exact h
  | cons p rest ih =>
    unfold setParam at h
    split at h
    · rcases List.mem_cons.mp h with hkv | hm
      · right; exact hkv
      · left; exact List.mem_cons_of_mem _ (List.mem_filter.mp hm).1
    · rcases List.mem_cons.mp h with hkv | hm
      · left; exact hkv ▸ List.mem_cons_self _ _
      · rcases ih hm with h1 | h2
        · left; exact List.mem_cons_of_mem _ h1
        · right; exact h2

theorem getAllP_setParam_self (ps : Params) (k v : String) :
    getAllP (setParam ps k v) k = [v] := by
  induction ps with
  | nil => simp [setParam, getAllP]
  | cons p rest ih =>
    unfold setParam
    split
    · unfold getAllP
      simp only [List.filter_cons, beq_self_eq_true, if_pos, List.filter_filter]
      have : (rest.filter fun q => (q.1 == k) && !(q.1 == k)) = [] := by
        apply List.filter_eq_nil_iff.mpr
        intro q _
        cases hq : q.1 == k <;> simp [hq]
      simp_all [List.map_cons]
    · rename_i hp
      unfold getAllP at ih ⊢
      simp only [List.filter_cons]
      have : (p.1 == k) = false := by simpa using hp
      rw [this]
      simpa using ih

/-! ### Claim C10: network-first navigation strategy -/

/-- Claim C10: for every navigation/shell request whose network fetch
resolves with a response, the network-first branch stores that response in
the app cache and returns it regardless of its HTTP status (a 404 or 500
shell response is cached and served just like a 200), and only a rejected
fetch falls back to the cached copy, or to the generic failure response
when no copy exists. -/
theorem handleNavigation_network_first :
    ∀ (s : Nat) (b : String) (cached : Option SWResponse),
      handleNavigation (some (SWResponse.http s b)) cached =
        (SWResponse.http s b, some (SWResponse.http s b)) ∧
      handleNavigation none cached = (cached.getD SWResponse.networkError, none) := by
  intro s b cached
  constructor
  · rfl
  · cases cached <;> rfl

/-! ### Claim C4: activation deletes exactly the non-current stores -/

/-- Claim C4: on activation, a store survives iff its name is the current
app-store or runtime-store name; with distinct store names at most two
stores remain; and from
`{app-v1, runtime-v1, app-v0, runtime-v0, unrelated-cache}` with current
version `v1` exactly the two `v1` stores survive. -/
theorem activate_keeps_exactly_current_stores :
    ∀ (v : String) (keys : List String), keys.Nodup →
      (∀ k ∈ keys, (k ∈ activateSurvivors v keys ↔ k = appCacheName v ∨ k = runtimeCacheName v)) ∧
      (activateSurvivors v keys).length ≤ 2 ∧
      activateSurvivors "v1"
        [appCacheName "v1", runtimeCacheName "v1", appCacheName "v0", runtimeCacheName "v0",
         "unrelated-cache"] = [appCacheName "v1", runtimeCacheName "v1"] := by
  intro v keys hnd
  refine ⟨?_, ?_, by decide⟩
  · intro k hk
    unfold activateSurvivors
    rw [List.mem_filter]
    simp [hk]
  · have hsub : activateSurvivors v keys ⊆ [appCacheName v, runtimeCacheName v] := by
      intro k hk
      rcases List.mem_filter.mp hk with ⟨-, hcond⟩
      rcases Bool.or_eq_true_iff.mp hcond with h | h
      · simp [beq_iff_eq.mp h]
      · simp [beq_iff_eq.mp h]
    have hnd2 : (activateSurvivors v keys).Nodup := List.Nodup.filter _ hnd
    have := (List.subperm_of_subset hnd2 hsub).length_le
    simpa using this

/-- Witness for `activate_keeps_exactly_current_stores` at the claim's
concrete store set. -/
theorem activate_keeps_exactly_current_stores_witness :
    activateSurvivors "v1"
      [appCacheName "v1", runtimeCacheName "v1", appCacheName "v0", runtimeCacheName "v0",
       "unrelated-cache"] = [appCacheName "v1", runtimeCacheName "v1"] ∧
    (activateSurvivors "v1"
      [appCacheName "v1", runtimeCacheName "v1", appCacheName "v0", runtimeCacheName "v0",
       "unrelated-cache"]).length ≤ 2 := by
  have h := activate_keeps_exactly_current_stores "v1"
    [appCacheName "v1", runtimeCacheName "v1", appCacheName "v0", runtimeCacheName "v0",
     "unrelated-cache"] (by decide)
  exact ⟨h.2.2, h.2.1⟩

/-! ### Claim C6: the missing-service 400 -/

/-- Claim C6 (amended): a request with no `service` parameter and no
`BBOX`/`bbox` parameter gets the 400 response whose body is
`{error: "Missing service parameter", usage: "Add ?service=tiles,
?service=features, or ?service=lidar"}` — the three valid services are
named in the `usage` string — without contacting any upstream; the
`validTypes` array appears only in the invalid-service-value branch. -/
theorem missing_service_returns_usage_400 :
    ∀ (apiKey : String) (params : Params),
      hasP params "service" = false → hasP params "BBOX" = false →
      hasP params "bbox" = false →
      routeOf apiKey params = Outcome.localResponse 400 missingServiceBody := by
  intro apiKey params hs hB hb
  unfold routeOf
  rw [getP_eq_none_of_hasP_false hs]
  simp [hB, hb]

/-- Witness for `missing_service_returns_usage_400` at a concrete
request. -/
theorem missing_service_returns_usage_400_witness :
    routeOf "K" [("foo", "1")] = Outcome.localResponse 400 missingServiceBody :=
  missing_service_returns_usage_400 "K" [("foo", "1")] (by decide) (by decide) (by decide)

/-- Counterexample to claim C6 as stated: the missing-service 400 body
does not carry the `validTypes` array `["tiles","features","lidar"]` (that
array appears only in the invalid-service-value 400); its `validTypes`
field is absent and the services are only named inside the `usage`
string. -/
theorem missing_service_body_lacks_validTypes :
    routeOf "K" [] = Outcome.localResponse 400 missingServiceBody ∧
    missingServiceBody.validTypes = none ∧
    invalidServiceBody.validTypes = some ["tiles", "features", "lidar"] := by
  decide

/-! ### Claim C7: BBOX alone does not route to LiDAR -/

/-- Claim C7 (amended): a request carrying a `BBOX`/`bbox` parameter is
routed to the LiDAR handler only when it also carries a `SERVICE` or
`service` key (of any value); with a bounding box but no service key under
either case, the missing-service 400 is returned instead. -/
theorem bbox_routing_requires_service_key :
    ∀ (apiKey : String) (params : Params),
      (hasP params "BBOX" || hasP params "bbox") = true →
      ((hasP params "SERVICE" = false ∧ hasP params "service" = false) →
        routeOf apiKey params = Outcome.localResponse 400 missingServiceBody) ∧
      ((hasP params "SERVICE" || hasP params "service") = true →
        routeOf apiKey params = Outcome.lidarCall) := by
  intro apiKey params hwms
  constructor
  · rintro ⟨hS, hs⟩
    unfold routeOf
    rw [getP_eq_none_of_hasP_false hs]
    simp [hS, hs]
  · intro hsvc
    unfold routeOf
    simp [hwms, hsvc]

/-- Witness for `bbox_routing_requires_service_key`: with a BBOX and a
`SERVICE=WMS` key the request is handed to the LiDAR handler. -/
theorem bbox_routing_requires_service_key_witness :
    routeOf "K" [("BBOX", "0,0,1,1"), ("SERVICE", "WMS")] = Outcome.lidarCall :=
  (bbox_routing_requires_service_key "K" [("BBOX", "0,0,1,1"), ("SERVICE", "WMS")]
    (by decide)).2 (by decide)

/-- Counterexample to claim C7 as stated: a request whose only parameter
is `BBOX` (no `service`/`SERVICE` key at all) is rejected with the
missing-service 400 instead of being routed to the LiDAR handler. -/
theorem bbox_without_service_gets_400 :
    routeOf "K" [("BBOX", "0,0,1,1")] = Outcome.localResponse 400 missingServiceBody ∧
    routeOf "K" [("BBOX", "0,0,1,1")] ≠ Outcome.lidarCall := by
  decide


/-! ### Claim C8: LiDAR outbound WMS parameters -/

theorem getP_mem {ps : Params} {k v : String} (h : getP ps k = some v) : (k, v) ∈ ps := by
  induction ps with
  | nil => simp [getP] at h
  | cons p rest ih =>
    unfold getP at h
    split at h
    · rename_i hp
      injection h with hv
      have : (k, v) = p := by cases p; simp_all
      rw [this]
      exact List.mem_cons_self _ _
    · exact List.mem_cons_of_mem _ (ih h)

theorem blp_layers (params : Params) (layers : String) :
    getAllP (buildLidarParams params layers) "LAYERS" = [layers] :=
  getAllP_setParam_self _ _ _

theorem blp_copies {params : Params} {layers : String} {kv : String × String}
    (hkv : kv ∈ params) (hmark : ¬(lowerStr kv.1 = "service" ∧ lowerStr kv.2 = "lidar"))
    (hlayk : kv.1 ≠ "LAYERS") : kv ∈ buildLidarParams params layers := by
  have hc : kv ∈ lidarCopied params := by
    unfold lidarCopied
    refine List.mem_filter.mpr ⟨hkv, ?_⟩
    by_cases h1 : lowerStr kv.1 = "service"
    · by_cases h2 : lowerStr kv.2 = "lidar"
      · exact absurd ⟨h1, h2⟩ hmark
      · simp [h1, h2]
    · simp [h1]
  unfold buildLidarParams
  apply (mem_setParam_of_ne _ layers hlayk).mpr
  unfold lidarWithService
  split
  · rename_i hcond
    simp only [Bool.not_eq_eq_eq_not, Bool.not_true, Bool.or_eq_false_iff] at hcond
    exact (mem_setParam_of_ne _ "WMS" (key_ne_of_hasP_false hcond.1 hc)).mpr hc
  · exact hc

theorem blp_no_service_key {params : Params}
    (hall : ∀ kv ∈ params, kv.1 = "SERVICE" ∨ kv.1 = "service" → lowerStr kv.2 = "lidar") :
    ∀ kv ∈ lidarCopied params, kv.1 ≠ "SERVICE" ∧ kv.1 ≠ "service" := by
  intro kv hkv
  rcases List.mem_filter.mp hkv with ⟨hmem, hpred⟩
  constructor
  · intro hk
    have hl := hall kv hmem (Or.inl hk)
    rw [hk, hl] at hpred
    have h1 : (lowerStr "SERVICE" == "service") = true := by decide
    rw [h1] at hpred
    simp at hpred
  · intro hk
    have hl := hall kv hmem (Or.inr hk)
    rw [hk, hl] at hpred
    have h1 : (lowerStr "service" == "service") = true := by decide
    rw [h1] at hpred
    simp at hpred

theorem blp_adds_service_wms {params : Params} {layers : String}
    (hall : ∀ kv ∈ params, kv.1 = "SERVICE" ∨ kv.1 = "service" → lowerStr kv.2 = "lidar") :
    ("SERVICE", "WMS") ∈ buildLidarParams params layers := by
  have hno := blp_no_service_key hall
  have hSf : hasP (lidarCopied params) "SERVICE" = false := by
    cases hS : hasP (lidarCopied params) "SERVICE" with
    | false => rfl
    | true =>
      exfalso
      unfold hasP at hS
      cases hg : getP (lidarCopied params) "SERVICE" with
      | none => rw [hg] at hS; simp at hS
      | some v => exact (hno _ (getP_mem hg)).1 rfl
  have hsf : hasP (lidarCopied params) "service" = false := by
    cases hS : hasP (lidarCopied params) "service" with
    | false => rfl
    | true =>
      exfalso
      unfold hasP at hS
      cases hg : getP (lidarCopied params) "service" with
      | none => rw [hg] at hS; simp at hS
      | some v => exact (hno _ (getP_mem hg)).2 rfl
  unfold buildLidarParams
  apply (mem_setParam_of_ne _ layers (by decide)).mpr
  unfold lidarWithService
  rw [if_pos (by simp [hSf, hsf])]
  exact mem_setParam_self _ _ _

theorem blp_drops_marker {params : Params} {layers : String} {kv : String × String}
    (hmark : lowerStr kv.1 = "service" ∧ lowerStr kv.2 = "lidar") :
    kv ∉ buildLidarParams params layers := by
  intro hout
  rcases mem_setParam_elim hout with hinw | hkveq
  · have hc : kv ∈ lidarCopied params ∨ kv = ("SERVICE", "WMS") := by
      unfold lidarWithService at hinw
      split at hinw
      · exact mem_setParam_elim hinw
      · exact Or.inl hinw
    rcases hc with hc | hkveq
    · rcases List.mem_filter.mp hc with ⟨-, hpred⟩
      rw [hmark.1, hmark.2] at hpred
      simp at hpred
    · rw [hkveq] at hmark
      exact absurd hmark.2 (by decide)
  · have h1 : kv.1 = "LAYERS" := by rw [hkveq]
    rw [h1] at hmark
    exact absurd hmark.1 (by decide)

/-- Claim C8: the outbound WMS parameters copy every original pair except
the proxy's own `service=lidar` marker (compared lowercased in both key
and value, so the marker never reaches the outbound request), gain
`SERVICE=WMS` when no `SERVICE`/`service` key survived the copy, and carry
the region's configured layer as the value of `LAYERS` regardless of any
caller-supplied layer value under any case variant. -/
theorem buildLidarParams_spec :
    ∀ (params : Params) (region : Region),
      getAllP (buildLidarParams params (getWMSConfig region).layers) "LAYERS" =
        [(getWMSConfig region).layers] ∧
      (∀ kv ∈ params,
        ¬(lowerStr kv.1 = "service" ∧ lowerStr kv.2 = "lidar") → kv.1 ≠ "LAYERS" →
          kv ∈ buildLidarParams params (getWMSConfig region).layers) ∧
      ((∀ kv ∈ params, kv.1 = "SERVICE" ∨ kv.1 = "service" → lowerStr kv.2 = "lidar") →
        ("SERVICE", "WMS") ∈ buildLidarParams params (getWMSConfig region).layers) ∧
      (∀ kv ∈ params, lowerStr kv.1 = "service" ∧ lowerStr kv.2 = "lidar" →
        kv ∉ buildLidarParams params (getWMSConfig region).layers) := by
  intro params region
  exact ⟨blp_layers params _,
    fun kv hkv hmark hlayk => blp_copies hkv hmark hlayk,
    fun hall => blp_adds_service_wms hall,
    fun kv _ hmark => blp_drops_marker hmark⟩

/-- Witness for `buildLidarParams_spec`: a caller sending the
`SERVICE=lidar` marker, a bounding box and a lowercase `layers=mine`
parameter gets an outbound parameter list that keeps `BBOX` and
`layers=mine`, gains `SERVICE=WMS`, drops the marker, and carries the
England layer as `LAYERS`. -/
theorem buildLidarParams_spec_witness :
    getAllP
        (buildLidarParams [("SERVICE", "lidar"), ("BBOX", "1,1,2,2"), ("layers", "mine")]
          (getWMSConfig Region.england).layers) "LAYERS" =
      ["Lidar_Composite_Hillshade_DTM_1m"] ∧
    ("BBOX", "1,1,2,2") ∈
      buildLidarParams [("SERVICE", "lidar"), ("BBOX", "1,1,2,2"), ("layers", "mine")]
        (getWMSConfig Region.england).layers ∧
    ("SERVICE", "WMS") ∈
      buildLidarParams [("SERVICE", "lidar"), ("BBOX", "1,1,2,2"), ("layers", "mine")]
        (getWMSConfig Region.england).layers ∧
    ("SERVICE", "lidar") ∉
      buildLidarParams [("SERVICE", "lidar"), ("BBOX", "1,1,2,2"), ("layers", "mine")]
        (getWMSConfig Region.england).layers := by
  have h := buildLidarParams_spec [("SERVICE", "lidar"), ("BBOX", "1,1,2,2"), ("layers", "mine")]
    Region.england
  exact ⟨h.1,
    h.2.1 ("BBOX", "1,1,2,2") (by decide) (by decide) (by decide),
    h.2.2.1 (by decide),
    h.2.2.2 ("SERVICE", "lidar") (by decide) (by decide)⟩

/-! ### Claims C1 and C3: Region Resolver and Coordinate Transform -/

theorem jAdd_some_some (a b : ℝ) : jAdd (some a) (some b) = some (a + b) := rfl

theorem jAdd_none_left (z : JSNum) : jAdd none z = none := by cases z <;> rfl

theorem jDiv_some_some (a b : ℝ) : jDiv (some a) (some b) = some (a / b) := rfl

theorem jDiv_none_left (z : JSNum) : jDiv none z = none := by cases z <;> rfl

theorem jAbs_some (a : ℝ) : jAbs (some a) = some |a| := rfl

theorem jAbs_none : jAbs none = none := rfl

theorem jLt_some_some (a b : ℝ) : jLt (some a) (some b) = (a < b) := rfl

theorem jLt_left_none (b : JSNum) : jLt none b = False := by cases b <;> rfl

theorem jLt_right_none (a : JSNum) : jLt a none = False := by cases a <;> rfl

open Classical in
/-- Claim C3: for every numeric center point (x, y), the code converts it
from Web-Mercator to geographic exactly when `|x| > 20000 or |y| > 20000`,
using `lon = (x / originShift)·180` and
`lat = (2·atan(exp((y / originShift)·π)) − π/2)·(180/π)` with
`originShift = π·6378137`, and otherwise uses (x, y) unchanged as
(longitude, latitude); `specMercGeo` is the claim's formula, `jToGeo` the
code's. -/
theorem jToGeo_matches_spec_formula :
    ∀ x y : ℝ, jToGeo (some x) (some y) =
      if |x| > 20000 ∨ |y| > 20000 then
        (some (specMercGeo x y).1, some (specMercGeo x y).2)
      else (some x, some y) := by
  intro x y
  have hsh : originShift = specOriginShift := by
    unfold originShift specOriginShift; ring
  have hcond : (jLt (some 20000) (jAbs (some x)) ∨ jLt (some 20000) (jAbs (some y))) ↔
      (|x| > 20000 ∨ |y| > 20000) := by
    rw [jAbs_some, jAbs_some, jLt_some_some, jLt_some_some]
  unfold jToGeo
  by_cases h : |x| > 20000 ∨ |y| > 20000
  · rw [if_pos (hcond.mpr h), if_pos h]
    have h1 : Option.map mercLon (some x) = some ((specMercGeo x y).1) := by
      simp only [Option.map_some', Option.some.injEq]
      unfold mercLon specMercGeo
      dsimp only
      rw [hsh]
    have h2 : Option.map mercLat (some y) = some ((specMercGeo x y).2) := by
      simp only [Option.map_some', Option.some.injEq]
      unfold mercLat specMercGeo
      dsimp only
      rw [hsh]
      ring
    rw [h1, h2]
  · rw [if_neg (fun hc => h (hcond.mp hc)), if_neg h]

/-- Counterexample to claim C1 as stated: the bbox string
`"foo,56,3,56"` does not split into four comma-separated *numbers*
(`parseFloat("foo")` is `NaN`, modelled as `none`), so the claim requires
`england`; but the code only counts the comma-separated fields, lets the
`NaN` flow through the center computation, and classifies the box as
`scotland` because the latitude-only rule sees `(56+56)/2 > 55.3`. -/
theorem detectRegion_nan_tokens_scotland :
    ¬ fourNumbers [none, some 56, some 3, some 56] ∧
    detectRegion [none, some 56, some 3, some 56] = Region.scotland := by
  constructor
  · rintro ⟨hlen, hall⟩
    have := hall none (by simp)
    simp at this
  · unfold detectRegion
    rw [if_neg (by simp)]
    have hb : bboxCenterGeo [none, some 56, some 3, some 56] =
        (none, some ((56 + 56) / 2)) := by
      unfold bboxCenterGeo
      simp only [List.getD_cons_zero, List.getD_cons_succ, jAdd_none_left, jDiv_none_left,
        jAdd_some_some, jDiv_some_some]
      unfold jToGeo
      rw [if_neg ?hcond]
      case hcond =>
        rw [jAbs_none, jAbs_some, jLt_right_none, jLt_some_some]
        have h5656 : ((56 : ℝ) + 56) / 2 = 56 := by norm_num
        rw [h5656]
        norm_num
    rw [hb]
    unfold classifyGeo
    rw [if_pos ?hscot]
    case hscot =>
      rw [jLt_some_some]
      norm_num

/-- Claim C1 (amended): if the bbox string does not split into exactly
four comma-separated *fields* the resolver returns `england`; otherwise
each field is parsed (a non-numeric field becomes `NaN`, and every
comparison involving `NaN` is false) and the box center's geographic
coordinates are classified by the four rules in listed order with the
first match winning — `lat > 55.3` gives `scotland` regardless of
longitude, else the Wales box, else the Northern-Ireland box, else
`england` — and exactly one region is returned for every input. -/
theorem detectRegion_amended_rules :
    ∀ (coords : List JSNum) (lon lat : JSNum),
      (coords.length ≠ 4 → detectRegion coords = Region.england) ∧
      (coords.length = 4 → bboxCenterGeo coords = (lon, lat) →
        ((jLt (some 55.3) lat → detectRegion coords = Region.scotland) ∧
         (¬ jLt (some 55.3) lat →
           (jLt lon (some (-2.5)) ∧ jLt (some 51.3) lat ∧ jLt lat (some 53.5)) →
           detectRegion coords = Region.wales) ∧
         (¬ jLt (some 55.3) lat →
           ¬(jLt lon (some (-2.5)) ∧ jLt (some 51.3) lat ∧ jLt lat (some 53.5)) →
           (jLt lon (some (-5.5)) ∧ jLt (some 54.0) lat ∧ jLt lat (some 55.5)) →
           detectRegion coords = Region.northern_ireland) ∧
         (¬ jLt (some 55.3) lat →
           ¬(jLt lon (some (-2.5)) ∧ jLt (some 51.3) lat ∧ jLt lat (some 53.5)) →
           ¬(jLt lon (some (-5.5)) ∧ jLt (some 54.0) lat ∧ jLt lat (some 55.5)) →
           detectRegion coords = Region.england))) := by
  intro coords lon lat
  constructor
  · intro h
    unfold detectRegion
    rw [if_pos h]
  · intro h4 hc
    have hd : detectRegion coords = classifyGeo lon lat := by
      unfold detectRegion
      rw [if_neg (by simp [h4])]
      rw [hc]
    refine ⟨?_, ?_, ?_, ?_⟩
    · intro h1
      rw [hd]; unfold classifyGeo; rw [if_pos h1]
    · intro h1 h2
      rw [hd]; unfold classifyGeo; rw [if_neg h1, if_pos h2]
    · intro h1 h2 h3
      rw [hd]; unfold classifyGeo; rw [if_neg h1, if_neg h2, if_pos h3]
    · intro h1 h2 h3
      rw [hd]; unfold classifyGeo; rw [if_neg h1, if_neg h2, if_neg h3]

/-- Witness for `detectRegion_amended_rules`: the well-formed box
`0,56,0,56` has center latitude 56 > 55.3 and resolves to `scotland`. -/
theorem detectRegion_amended_rules_witness :
    detectRegion [some 0, some 56, some 0, some 56] = Region.scotland := by
  have hb : bboxCenterGeo [some 0, some 56, some 0, some 56] =
      (some ((0 + 0) / 2), some ((56 + 56) / 2)) := by
    unfold bboxCenterGeo
    simp only [List.getD_cons_zero, List.getD_cons_succ, jAdd_some_some, jDiv_some_some]
    unfold jToGeo
    rw [if_neg ?hcond]
    case hcond =>
      rw [jAbs_some, jAbs_some, jLt_some_some, jLt_some_some]
      have h00 : ((0 : ℝ) + 0) / 2 = 0 := by norm_num
      have h5656 : ((56 : ℝ) + 56) / 2 = 56 := by norm_num
      rw [h00, h5656]
      norm_num
  have h := (detectRegion_amended_rules [some 0, some 56, some 0, some 56]
      (some ((0 + 0) / 2)) (some ((56 + 56) / 2))).2 (by simp) hb
  apply h.1
  rw [jLt_some_some]
  norm_num

/-! ### Claims C5 and C9: the style-JSON rewrite -/

theorem truthy_obj (fs : List (String × Json)) : (Json.obj fs).truthy = true := rfl

theorem obj_of_getF_some {j : Json} {k : String} {v : Json} (h : j.getF k = some v) :
    ∃ fs, j = Json.obj fs := by
  cases j <;> simp [Json.getF] at h ⊢

theorem getA_setA_self (fs : List (String × Json)) (k : String) (v : Json) :
    getA (setA fs k v) k = some v := by
  induction fs with
  | nil => simp [setA, getA]
  | cons p rest ih =>
    unfold setA
    split
    · simp [getA]
    · rename_i hp
      unfold getA
      rw [if_neg hp]
      exact ih

theorem getF_setF_obj_self (fs : List (String × Json)) (k : String) (v : Json) :
    ((Json.obj fs).setF k v).getF k = some v := getA_setA_self fs k v

theorem getF_delF_self (j : Json) (k : String) : (j.delF k).getF k = none := by
  cases j with
  | obj fs =>
    show getA (fs.filter fun p => !(p.1 == k)) k = none
    induction fs with
    | nil => rfl
    | cons p rest ih =>
      rw [List.filter_cons]
      split
      · rename_i hp
        simp only [Bool.not_eq_eq_eq_not, Bool.not_true, beq_eq_false_iff_ne] at hp
        unfold getA
        rw [if_neg hp]
        exact ih
      · exact ih
  | null => rfl
  | bool b => rfl
  | num q => rfl
  | str s => rfl
  | arr xs => rfl

theorem getF_delF_ne {k k' : String} (j : Json) (hne : k ≠ k') :
    (j.delF k').getF k = j.getF k := by
  cases j with
  | obj fs =>
    show getA (fs.filter fun p => !(p.1 == k')) k = getA fs k
    induction fs with
    | nil => rfl
    | cons p rest ih =>
      rw [List.filter_cons]
      split
      · rename_i hp
        unfold getA
        split
        · rfl
        · exact ih
      · rename_i hp
        have hpk : p.1 = k' := by
          simp only [Bool.not_eq_true', Bool.not_eq_false] at hp
          exact beq_iff_eq.mp hp
        have hnk : ¬(p.1 = k) := by rw [hpk]; exact fun h => hne h.symm
        have hcons : getA (p :: rest) k = if p.1 = k then some p.2 else getA rest k := rfl
        rw [hcons, if_neg hnk]
        exact ih
  | null => rfl
  | bool b => rfl
  | num q => rfl
  | str s => rfl
  | arr xs => rfl

theorem getF_setF_ne {k k' : String} (j : Json) (v : Json) (hne : k ≠ k') :
    (j.setF k' v).getF k = j.getF k := by
  cases j with
  | obj fs =>
    show getA (setA fs k' v) k = getA fs k
    induction fs with
    | nil =>
      show (if k' = k then some v else none) = none
      rw [if_neg (fun h => hne h.symm)]
    | cons p rest ih =>
      unfold setA
      split
      · rename_i hp
        have hcons1 : getA ((k', v) :: rest) k = if k' = k then some v else getA rest k := rfl
        have hcons2 : getA (p :: rest) k = if p.1 = k then some p.2 else getA rest k := rfl
        rw [hcons1, hcons2, if_neg (fun h => hne h.symm), if_neg (hp ▸ fun h => hne h.symm)]
      · rename_i hp
        have hcons1 : getA (p :: setA rest k' v) k =
            if p.1 = k then some p.2 else getA (setA rest k' v) k := rfl
        have hcons2 : getA (p :: rest) k = if p.1 = k then some p.2 else getA rest k := rfl
        rw [hcons1, hcons2, ih]
  | null => rfl
  | bool b => rfl
  | num q => rfl
  | str s => rfl
  | arr xs => rfl

/-- Claim C9 (amended): the top-level `center` and `zoom` deletion runs
exactly when the parsed payload has a truthy `sources` field *and* the
request was a `tiles` request — then the output has no top-level `center`
or `zoom` — and in every other case the rewriter returns the parsed
payload unchanged (so a `center` field in a sources-less payload
survives). -/
theorem center_zoom_removed_iff_sources_tiles :
    ∀ (origin : String) (serviceType : Option String) (cid : String) (data : Json),
      ((truthyOpt (data.getF "sources") && (serviceType == some "tiles")) = true →
        (rewriteStyle origin serviceType cid data).getF "center" = none ∧
        (rewriteStyle origin serviceType cid data).getF "zoom" = none) ∧
      ((truthyOpt (data.getF "sources") && (serviceType == some "tiles")) = false →
        rewriteStyle origin serviceType cid data = data) := by
  intro origin st cid data
  constructor
  · intro hcond
    unfold rewriteStyle
    rw [if_pos hcond]
    constructor
    · rw [getF_delF_ne _ (by decide), getF_delF_self]
    · rw [getF_delF_self]
  · intro hcond
    unfold rewriteStyle
    rw [if_neg (by simp [hcond])]

/-- Witness for `center_zoom_removed_iff_sources_tiles`: a payload with an
(empty, hence truthy) `sources` object on a tiles request loses its
`center`; the same payload on a features request is returned unchanged. -/
theorem center_zoom_removed_iff_sources_tiles_witness :
    (rewriteStyle "https://proxy.example" (some "tiles") "ngd-base"
        (Json.obj [("sources", Json.obj []), ("center", Json.num 3)])).getF "center" = none ∧
    rewriteStyle "https://proxy.example" (some "features") "ngd-base"
        (Json.obj [("sources", Json.obj []), ("center", Json.num 3)]) =
      Json.obj [("sources", Json.obj []), ("center", Json.num 3)] := by
  refine ⟨(center_zoom_removed_iff_sources_tiles "https://proxy.example" (some "tiles") "ngd-base"
      (Json.obj [("sources", Json.obj []), ("center", Json.num 3)])).1 rfl |>.1, ?_⟩
  exact (center_zoom_removed_iff_sources_tiles "https://proxy.example" (some "features") "ngd-base"
      (Json.obj [("sources", Json.obj []), ("center", Json.num 3)])).2 rfl

/-- Counterexample to claim C9 as stated: a JSON payload without a
`sources` object keeps its top-level `center` and `zoom` — the deletion
step is inside the `sources && tiles` guard, so it does not apply to every
JSON payload the rewriter processes. -/
theorem rewriteStyle_keeps_center_without_sources :
    (rewriteStyle "https://proxy.example" (some "tiles") "ngd-base"
        (Json.obj [("center", Json.num 1), ("zoom", Json.num 2)])).getF "center" =
      some (Json.num 1) ∧
    (rewriteStyle "https://proxy.example" (some "tiles") "ngd-base"
        (Json.obj [("center", Json.num 1), ("zoom", Json.num 2)])).getF "zoom" =
      some (Json.num 2) := ⟨rfl, rfl⟩

/-- Claim C5 (amended): for every tiles-request JSON response whose parsed
body has a sources entry keyed by the request's collection whose `url`
field holds a *truthy* value (e.g. a non-empty string): after rewriting,
that source has no `url` field, it carries a `tiles` array holding exactly
the templated URL `{origin}?service=tiles&collection={cid}&path=...`
pointing back at the proxy, and the top-level `center` and `zoom` fields
are absent from the output whether or not they were present. -/
theorem rewriteStyle_truthy_url_rewrite :
    ∀ (origin cid : String) (data sources src u : Json),
      data.getF "sources" = some sources →
      sources.getF cid = some src →
      src.getF "url" = some u →
      u.truthy = true →
      (rewriteStyle origin (some "tiles") cid data).getF "sources" =
        some (sources.setF cid (rewrittenSource origin cid src)) ∧
      (sources.setF cid (rewrittenSource origin cid src)).getF cid =
        some (rewrittenSource origin cid src) ∧
      (rewrittenSource origin cid src).getF "url" = none ∧
      (rewrittenSource origin cid src).getF "tiles" =
        some (Json.arr [Json.str (tilesTemplate origin cid)]) ∧
      (rewriteStyle origin (some "tiles") cid data).getF "center" = none ∧
      (rewriteStyle origin (some "tiles") cid data).getF "zoom" = none := by
  intro origin cid data sources src u hsrc hcid hurl hu
  obtain ⟨fsS, hS⟩ := obj_of_getF_some hcid
  obtain ⟨fsR, hR⟩ := obj_of_getF_some hurl
  have hcond : (truthyOpt (data.getF "sources") &&
      ((some "tiles" : Option String) == some "tiles")) = true := by
    rw [hsrc, hS]
    rfl
  have hout : rewriteStyle origin (some "tiles") cid data =
      ((data.setF "sources" (sources.setF cid (rewrittenSource origin cid src))).delF
        "center").delF "zoom" := by
    unfold rewriteStyle
    rw [if_pos hcond, hsrc]
    dsimp only
    rw [hcid]
    dsimp only
    have hsrcCond : (src.truthy && truthyOpt (src.getF "url")) = true := by
      rw [hurl, hR]
      show (true && u.truthy) = true
      rw [hu]
      rfl
    rw [if_pos hsrcCond]
  refine ⟨?_, ?_, ?_, ?_, ?_, ?_⟩
  · rw [hout, getF_delF_ne _ (by decide), getF_delF_ne _ (by decide)]
    obtain ⟨fsD, hD⟩ := obj_of_getF_some hsrc
    rw [hD]
    exact getF_setF_obj_self _ _ _
  · rw [hS]
    exact getF_setF_obj_self _ _ _
  · exact getF_delF_self _ _
  · unfold rewrittenSource
    rw [getF_delF_ne _ (by decide), hR]
    exact getF_setF_obj_self _ _ _
  · rw [hout, getF_delF_ne _ (by decide), getF_delF_self]
  · rw [hout, getF_delF_self]

/-- Witness for `rewriteStyle_truthy_url_rewrite` at a concrete style
document with a non-empty source URL. -/
theorem rewriteStyle_truthy_url_rewrite_witness :
    (rewriteStyle "https://proxy.example" (some "tiles") "ngd-base"
        (Json.obj [("sources", Json.obj [("ngd-base",
            Json.obj [("url", Json.str "https://api.os.uk/x?key=S")])]),
          ("center", Json.num 1), ("zoom", Json.num 7)])).getF "center" = none ∧
    (rewriteStyle "https://proxy.example" (some "tiles") "ngd-base"
        (Json.obj [("sources", Json.obj [("ngd-base",
            Json.obj [("url", Json.str "https://api.os.uk/x?key=S")])]),
          ("center", Json.num 1), ("zoom", Json.num 7)])).getF "zoom" = none ∧
    (rewrittenSource "https://proxy.example" "ngd-base"
        (Json.obj [("url", Json.str "https://api.os.uk/x?key=S")])).getF "url" = none ∧
    (rewrittenSource "https://proxy.example" "ngd-base"
        (Json.obj [("url", Json.str "https://api.os.uk/x?key=S")])).getF "tiles" =
      some (Json.arr [Json.str (tilesTemplate "https://proxy.example" "ngd-base")]) := by
  have h := rewriteStyle_truthy_url_rewrite "https://proxy.example" "ngd-base"
    (Json.obj [("sources", Json.obj [("ngd-base",
        Json.obj [("url", Json.str "https://api.os.uk/x?key=S")])]),
      ("center", Json.num 1), ("zoom", Json.num 7)])
    (Json.obj [("ngd-base", Json.obj [("url", Json.str "https://api.os.uk/x?key=S")])])
    (Json.obj [("url", Json.str "https://api.os.uk/x?key=S")])
    (Json.str "https://api.os.uk/x?key=S") rfl rfl rfl rfl
  exact ⟨h.2.2.2.2.1, h.2.2.2.2.2, h.2.2.1, h.2.2.2.1⟩

/-- Counterexample to claim C5 as stated: a source whose `url` field is
present but holds the falsy empty string is *not* rewritten — the `url`
field is still present after rewriting, although the claim (which only
asks for "a url field") requires it to be absent. -/
theorem rewriteStyle_keeps_falsy_url :
    ((Json.obj [("sources", Json.obj [("ngd-base", Json.obj [("url", Json.str "")])]),
        ("center", Json.num 1)]).getF "sources" |>.bind (Json.getF · "ngd-base") |>.bind
        (Json.getF · "url")) = some (Json.str "") ∧
    ((rewriteStyle "https://proxy.example" (some "tiles") "ngd-base"
        (Json.obj [("sources", Json.obj [("ngd-base", Json.obj [("url", Json.str "")])]),
          ("center", Json.num 1)])).getF "sources" |>.bind (Json.getF · "ngd-base") |>.bind
        (Json.getF · "url")) = some (Json.str "") := ⟨rfl, rfl⟩

/-! ### Claim C2: the key-redaction pass -/

theorem dropKeyVal_length_le (rest : List Char) :
    ((rest.drop 4).dropWhile isVal).length ≤ rest.length := by
  calc ((rest.drop 4).dropWhile isVal).length
      ≤ (rest.drop 4).length := (List.dropWhile_suffix _).sublist.length_le
    _ ≤ rest.length := by rw [List.length_drop]; omega

theorem stripF_congr (pre : Char) :
    ∀ f g l, l.length ≤ f → l.length ≤ g → stripF pre f l = stripF pre g l := by
  intro f
  induction f with
  | zero =>
    intro g l hf hg
    have hl : l = [] := List.length_eq_zero.mp (Nat.le_zero.mp hf)
    subst hl
    cases g <;> rfl
  | succ f ih =>
    intro g l hf hg
    cases l with
    | nil => cases g <;> rfl
    | cons c rest =>
      cases g with
      | zero => simp at hg
      | succ g =>
        show (if c == pre && keyPat rest then stripF pre f ((rest.drop 4).dropWhile isVal)
              else c :: stripF pre f rest) =
            (if c == pre && keyPat rest then stripF pre g ((rest.drop 4).dropWhile isVal)
              else c :: stripF pre g rest)
        have hrest : rest.length + 1 ≤ f + 1 := by simpa using hf
        have hrest2 : rest.length + 1 ≤ g + 1 := by simpa using hg
        have hT := dropKeyVal_length_le rest
        split
        · exact ih g _ (by omega) (by omega)
        · rw [ih g rest (by omega) (by omega)]

theorem stripKeys_cons (pre c : Char) (rest : List Char) :
    stripKeys pre (c :: rest) =
      if c == pre && keyPat rest then stripKeys pre ((rest.drop 4).dropWhile isVal)
      else c :: stripKeys pre rest := by
  show (if c == pre && keyPat rest then stripF pre rest.length ((rest.drop 4).dropWhile isVal)
        else c :: stripF pre rest.length rest) = _
  unfold stripKeys
  have hT := dropKeyVal_length_le rest
  split
  · exact stripF_congr pre _ _ _ (by omega) (by omega)
  · rfl

theorem keyPat_iff (l : List Char) : keyPat l = true ↔
    ∃ v t, l = 'k' :: 'e' :: 'y' :: '=' :: v :: t ∧ isVal v = true := by
  constructor
  · intro h
    match l, h with
    | k :: e :: y :: q :: v :: t, h =>
      unfold keyPat at h
      simp only [Bool.and_eq_true, beq_iff_eq] at h
      obtain ⟨⟨⟨⟨h1, h2⟩, h3⟩, h4⟩, h5⟩ := h
      exact ⟨v, t, by rw [h1, h2, h3, h4], h5⟩
  · rintro ⟨v, t, rfl, hv⟩
    simp [keyPat, hv]

theorem dropWhile_head_false {p : Char → Bool} :
    ∀ (l : List Char) (c : Char) (t : List Char), l.dropWhile p = c :: t → p c = false := by
  intro l
  induction l with
  | nil => intro c t h; simp at h
  | cons a l ih =>
    intro c t h
    rw [List.dropWhile_cons] at h
    split at h
    · exact ih _ _ h
    · rename_i hpa
      injection h with h1 h2
      rw [← h1]
      exact Bool.eq_false_iff.mpr hpa

theorem stripKeys_prefix_val (pre : Char) :
    ∀ (n : Nat) (l w t : List Char), l.length ≤ n → (∀ c ∈ w, isVal c = true) →
      stripKeys pre l = w ++ t → ∃ t0, l = w ++ t0 ∧ stripKeys pre t0 = t := by
  intro n
  induction n with
  | zero =>
    intro l w t hl hw hs
    have hnil : l = [] := List.length_eq_zero.mp (Nat.le_zero.mp hl)
    subst hnil
    have h0 : ([] : List Char) = w ++ t := hs
    rcases List.append_eq_nil.mp h0.symm with ⟨rfl, rfl⟩
    exact ⟨[], rfl, rfl⟩
  | succ n ih =>
    intro l w t hl hw hs
    cases l with
    | nil =>
      have h0 : ([] : List Char) = w ++ t := hs
      rcases List.append_eq_nil.mp h0.symm with ⟨rfl, rfl⟩
      exact ⟨[], rfl, rfl⟩
    | cons c rest =>
      have hrestn : rest.length ≤ n := by
        have h1 : rest.length + 1 ≤ n + 1 := by simpa using hl
        omega
      rw [stripKeys_cons] at hs
      by_cases hcond : (c == pre && keyPat rest) = true
      · rw [if_pos hcond] at hs
        cases w with
        | nil =>
          refine ⟨c :: rest, rfl, ?_⟩
          rw [stripKeys_cons, if_pos hcond]
          exact hs
        | cons wc w2 =>
          exfalso
          have hTn : ((rest.drop 4).dropWhile isVal).length ≤ n :=
            le_trans (dropKeyVal_length_le rest) hrestn
          obtain ⟨t0, hT, -⟩ := ih _ (wc :: w2) t hTn hw hs
          have hhead : isVal wc = false := dropWhile_head_false _ _ _ hT
          rw [hw wc (List.mem_cons_self _ _)] at hhead
          cases hhead
      · rw [if_neg hcond] at hs
        cases w with
        | nil =>
          refine ⟨c :: rest, rfl, ?_⟩
          rw [stripKeys_cons, if_neg hcond]
          exact hs
        | cons wc w2 =>
          have h1 : c = wc := by
            have h2 := congrArg (fun l => l.head?) hs
            simpa using h2
          have h2 : stripKeys pre rest = w2 ++ t := by
            have h3 := congrArg List.tail hs
            simpa using h3
          obtain ⟨t0, h3, h4⟩ := ih rest w2 t hrestn
            (fun d hd => hw d (List.mem_cons_of_mem _ hd)) h2
          refine ⟨t0, ?_, h4⟩
          rw [List.cons_append, ← h1, h3]

theorem hasPat_cons (pre c : Char) (rest : List Char) :
    hasPat pre (c :: rest) = ((c == pre && keyPat rest) || hasPat pre rest) := rfl

theorem keyPat_of_stripKeys_keyPat {pre : Char} {l : List Char}
    (h : keyPat (stripKeys pre l) = true) : keyPat l = true := by
  obtain ⟨v, t, hX, hv⟩ := (keyPat_iff _).mp h
  have hval : ∀ c ∈ ['k', 'e', 'y', '=', v], isVal c = true := by
    intro c hc
    simp only [List.mem_cons] at hc
    rcases hc with rfl | rfl | rfl | rfl | rfl | hc
    · rfl
    · rfl
    · rfl
    · rfl
    · exact hv
    · simp at hc
  obtain ⟨t0, hl, -⟩ := stripKeys_prefix_val pre l.length l ['k', 'e', 'y', '=', v] t
    (le_refl _) hval (by rw [hX]; rfl)
  rw [hl]
  exact (keyPat_iff _).mpr ⟨v, t0, rfl, hv⟩

theorem hasPat_stripKeys_self (pre : Char) :
    ∀ (n : Nat) (l : List Char), l.length ≤ n → hasPat pre (stripKeys pre l) = false := by
  intro n
  induction n with
  | zero =>
    intro l hl
    have hnil : l = [] := List.length_eq_zero.mp (Nat.le_zero.mp hl)
    subst hnil
    rfl
  | succ n ih =>
    intro l hl
    cases l with
    | nil => rfl
    | cons c rest =>
      have hrestn : rest.length ≤ n := by
        have h1 : rest.length + 1 ≤ n + 1 := by simpa using hl
        omega
      rw [stripKeys_cons]
      by_cases hcond : (c == pre && keyPat rest) = true
      · rw [if_pos hcond]
        exact ih _ (le_trans (dropKeyVal_length_le rest) hrestn)
      · rw [if_neg hcond, hasPat_cons]
        apply Bool.or_eq_false_iff.mpr
        refine ⟨?_, ih rest hrestn⟩
        by_cases hkp : keyPat (stripKeys pre rest) = true
        · have hkr : keyPat rest = true := keyPat_of_stripKeys_keyPat hkp
          have hcp : (c == pre) = false := by
            cases hcp : (c == pre) with
            | false => rfl
            | true => exact absurd (by rw [hcp, hkr]; rfl) hcond
          rw [hcp]
          rfl
        · rw [Bool.not_eq_true] at hkp
          rw [hkp]
          simp
      
theorem hasPat_suffix_false {pre : Char} :
    ∀ {l s : List Char}, s <:+ l → hasPat pre l = false → hasPat pre s = false := by
  intro l
  induction l with
  | nil =>
    intro s hs h
    rw [List.suffix_nil.mp hs]
    rfl
  | cons c rest ih =>
    intro s hs h
    rcases List.suffix_cons_iff.mp hs with rfl | hs2
    · exact h
    · rw [hasPat_cons] at h
      exact ih hs2 (Bool.or_eq_false_iff.mp h).2

theorem hasPat_stripKeys_other (p2 : Char) :
    ∀ (n : Nat) (l : List Char) (p1 : Char), l.length ≤ n → hasPat p1 l = false →
      hasPat p1 (stripKeys p2 l) = false := by
  intro n
  induction n with
  | zero =>
    intro l p1 hl h
    have hnil : l = [] := List.length_eq_zero.mp (Nat.le_zero.mp hl)
    subst hnil
    rfl
  | succ n ih =>
    intro l p1 hl h
    cases l with
    | nil => rfl
    | cons c rest =>
      have hrestn : rest.length ≤ n := by
        have h1 : rest.length + 1 ≤ n + 1 := by simpa using hl
        omega
      rw [hasPat_cons] at h
      obtain ⟨hc1, hc2⟩ := Bool.or_eq_false_iff.mp h
      rw [stripKeys_cons]
      by_cases hcond : (c == p2 && keyPat rest) = true
      · rw [if_pos hcond]
        have hsuf : (rest.drop 4).dropWhile isVal <:+ c :: rest :=
          ((List.dropWhile_suffix _).trans (List.drop_suffix _ _)).trans
            (List.suffix_cons _ _)
        exact ih _ p1 (le_trans (dropKeyVal_length_le rest) hrestn)
          (hasPat_suffix_false hsuf h)
      · rw [if_neg hcond, hasPat_cons]
        apply Bool.or_eq_false_iff.mpr
        refine ⟨?_, ih rest p1 hrestn hc2⟩
        by_cases hkp : keyPat (stripKeys p2 rest) = true
        · have hkr : keyPat rest = true := keyPat_of_stripKeys_keyPat hkp
          have hcp : (c == p1) = false := by
            cases hcp : (c == p1) with
            | false => rfl
            | true =>
              exfalso
              have htrue : (c == p1 && keyPat rest) = true := by rw [hcp, hkr]; rfl
              rw [htrue] at hc1
              cases hc1
          rw [hcp]
          rfl
        · rw [Bool.not_eq_true] at hkp
          rw [hkp]
          simp

/-- Claim C2 (amended): after the redaction pass, the output text contains
no occurrence of `?` or `&` immediately followed by `key=` and a `[^"&]`
character, i.e. no match of either redaction pattern survives (and none is
created by splicing); occurrences of the bare substring `key=` that are not
of this form -- for instance inside `donkey=` or not preceded by `?`/`&` --
are not touched, so the original claim's "zero occurrences of `key=`"
postcondition does not hold. -/
theorem redact_no_redactable_pattern :
    ∀ l : List Char, hasPat '?' (redact l) = false ∧ hasPat '&' (redact l) = false := by
  intro l
  constructor
  · exact hasPat_stripKeys_other '&' (stripKeys '?' l).length (stripKeys '?' l) '?'
      (le_refl _) (hasPat_stripKeys_self '?' l.length l (le_refl _))
  · exact hasPat_stripKeys_self '&' (stripKeys '?' l).length (stripKeys '?' l) (le_refl _)

/-- Counterexample to claim C2 as stated: the serialized body
`"?key=ABC123&donkey=7"` (the JSON serialization of a string field)
contains `?key=ABC123`, yet after rewriting the output still contains the
substring `key=` (inside `donkey=7`), because the two regexes only delete
`?key=...` and `&key=...` matches. -/
theorem redact_leaves_plain_key :
    containsSeq ("?key=ABC123").toList ("\"?key=ABC123&donkey=7\"").toList = true ∧
    containsSeq ("key=").toList (redact ("\"?key=ABC123&donkey=7\"").toList) = true ∧
    redact ("\"?key=ABC123&donkey=7\"").toList = ("\"&donkey=7\"").toList := by
  decide
